import Mathlib

/-!
Verification of the gossip SIP transaction layer (RFC 3261 §17).

Shallow embedding of the transaction package: message data model (the
external parsing facade, §3 of the spec), transaction-key derivation
(`store.go`), the client transaction FSMs (`client_fsm.go` / the
action-method variant), client timer initialisation (`Manager.Send`,
RFC-correct variant), response correlation (`Manager.correlate`),
request handling (`Manager.request`), and the server transaction
surface (`server.go`).  Durations are in milliseconds.
-/

set_option autoImplicit false

namespace Gossip

/-! ### Message data model (external facade, spec §3)

The header types (`ViaHop`, `CSeq`, `MaybeString`, …) come from the
repository's `base` package whose header files are not part of the
extracted sources; the shapes below follow the accessors used by
`base/common.go` and the spec §3: a parsed Via header exposes a first
hop with host, optional port and an optional `branch` parameter whose
value is either a string or the valueless `NoString`. -/

/-- A `MaybeString` parameter value: `some s` is `base.String`, `none` is
`base.NoString`.  `dispMaybe` mirrors `MaybeString.String()`, which
renders `NoString` as the empty string. -/
def dispMaybe : Option String → String
  | some s => s
  | none => ""

/-- `base.CSeq`: sequence number and method name. -/
structure CSeqH where
  seqNo : Nat
  methodName : String
deriving DecidableEq

/-- Top hop of the first Via header (`base.ViaHop`): transport token,
host, optional port (`Port *uint16` in Go, `nil` when absent) and the
optional `branch` parameter. -/
structure ViaHop where
  transp : String
  host : String
  port : Option Nat
  branch : Option (Option String)
deriving DecidableEq

/-- Rendering of a Via hop, standing for `ViaHop.String()` (the exact
formatter lives in the `base` header files outside the extracted
sources); it is injective in the fields the key derivation uses. -/
def ViaHop.render (h : ViaHop) : String :=
  "SIP/2.0/" ++ h.transp ++ " " ++ h.host
    ++ (match h.port with
        | some p => ":" ++ toString p
        | none => "")
    ++ (match h.branch with
        | some (some b) => ";branch=" ++ b
        | some none => ";branch"
        | none => "")

/-- A From/To header: display/URI part plus the optional `tag` parameter
(outer `none` when the `tag` parameter is absent, inner `Option` for the
`MaybeString` value). -/
structure NameAddr where
  uri : String
  tag : Option (Option String)
deriving DecidableEq

/-- Headers shared by requests and responses, as consumed through the
accessors of `base/common.go` (`ViaHop()`, `FromTag()`, `CallId()`,
`CSeq()`, …).  A present Via header always carries a first hop (spec §3:
the first hop exposes host, port and branch). -/
structure MsgCore where
  via : Option ViaHop
  fromH : Option NameAddr
  toH : Option NameAddr
  callId : Option String
  cseq : Option CSeqH
  timestamp : Option String
deriving DecidableEq

/-- `base.Request`: method, Request-URI (as its string rendering),
SIP version and headers. -/
structure SipRequest where
  method : String
  recipient : String
  sipVersion : String
  core : MsgCore
deriving DecidableEq

/-- `base.Response`: status code, reason phrase, SIP version, headers. -/
structure SipResponse where
  statusCode : Nat
  reason : String
  sipVersion : String
  core : MsgCore
deriving DecidableEq

/-- `base.SipMessage`: either a request or a response. -/
inductive SipMsg where
  | req (r : SipRequest)
  | res (r : SipResponse)
deriving DecidableEq

/-- `FromTag()` of `base/common.go`: requires the From header and its
`tag` parameter. -/
def MsgCore.fromTag (m : MsgCore) : Option (Option String) :=
  m.fromH.bind (·.tag)

/-! ### RFC 3261 timing constants (`transaction` package) -/

def T1 : Nat := 500
def T2 : Nat := 4000
def T4 : Nat := 5000
def Timer_A : Nat := T1
def Timer_B : Nat := 64 * T1
def Timer_D : Nat := 32000
def Timer_H : Nat := 64 * T1

def RFC3261BranchMagicCookie : String := "z9hG4bK"

/-- `strings.HasPrefix`, computed on the character lists (the byte-wise
built-in does not reduce definitionally). -/
def listHasPre : List Char → List Char → Bool
  | _, [] => true
  | [], _ :: _ => false
  | a :: as, b :: bs => a == b && listHasPre as bs

def strHasPre (s p : String) : Bool :=
  listHasPre s.data p.data

/-- `strings.TrimPrefix(s, cookie)`: drop the cookie when it is a prefix,
otherwise return `s` unchanged. -/
def stripCookie (s : String) : String :=
  if strHasPre s RFC3261BranchMagicCookie then
    String.mk (s.data.drop RFC3261BranchMagicCookie.data.length)
  else s

/-- The RFC 3261 branch test used by both key derivations in `store.go`:
non-empty, starts with the magic cookie, and has material after it. -/
def isRFC3261BranchStr (s : String) : Bool :=
  s ≠ "" && strHasPre s RFC3261BranchMagicCookie && stripCookie s ≠ ""

/-- Whether a message's top Via hop carries an RFC 3261-form branch. -/
def rfc3261Branch (m : MsgCore) : Bool :=
  match m.via with
  | none => false
  | some hop =>
    match hop.branch with
    | none => false
    | some mv => isRFC3261BranchStr (dispMaybe mv)

/-- ACK folding used by both key derivations: `if method == base.ACK
{ method = base.INVITE }`. -/
def foldACK (method : String) : String :=
  if method == "ACK" then "INVITE" else method

/-- Error outcomes of key derivation.  `nilPortPanic` marks the nil
pointer dereference `fmt.Sprint(*firstViaHop.Port)` performed by
`makeServerTxKey` on the RFC 3261 path when the top Via hop has no
port. -/
inductive KeyErr where
  | missingVia
  | missingCSeq
  | missingFromTag
  | missingCallId
  | missingBranch
  | malformedBranch
  | nilPortPanic
deriving DecidableEq

/-- `makeServerTxKey` (`store.go`): RFC 3261 §17.2.3 server transaction
key.  Fetches the top Via hop and the CSeq, folds ACK into INVITE, and
keys on `branch$host$port$method` when the branch is RFC 3261-form; the
RFC 2543 fallback is `request-uri$from-tag$call-id$method$seq-no$via`.
The separator is `"$"`. -/
def makeServerTxKey (req : SipRequest) : Except KeyErr String :=
  match req.core.via with
  | none => .error .missingVia
  | some hop =>
    match req.core.cseq with
    | none => .error .missingCSeq
    | some cseq =>
      let method := foldACK cseq.methodName
      let fallback : Except KeyErr String :=
        match req.core.fromTag with
        | none => .error .missingFromTag
        | some ftag =>
          match req.core.callId with
          | none => .error .missingCallId
          | some cid =>
            .ok (String.intercalate "$"
              [req.recipient, dispMaybe ftag, cid, method,
               toString cseq.seqNo, hop.render])
      match hop.branch with
      | none => fallback
      | some mv =>
        if isRFC3261BranchStr (dispMaybe mv) then
          match hop.port with
          | some p =>
            .ok (String.intercalate "$"
              [dispMaybe mv, hop.host, toString p, method])
          | none => .error .nilPortPanic
        else fallback

/-- `makeClientTxKey` (`store.go`): RFC 3261 §17.1.3 client transaction
key `branch$method` (ACK folded into INVITE); requires a CSeq header and
an RFC 3261-form branch, failing with a malformed-branch (or missing
header) error otherwise.  The branch condition mirrors the source's
`len == 0 || !HasPrefix || len(TrimPrefix) == 0` by De Morgan. -/
def makeClientTxKey (m : MsgCore) : Except KeyErr String :=
  match m.cseq with
  | none => .error .missingCSeq
  | some cseq =>
    let method := foldACK cseq.methodName
    match m.via with
    | none => .error .missingVia
    | some hop =>
      match hop.branch with
      | none => .error .missingBranch
      | some mv =>
        if isRFC3261BranchStr (dispMaybe mv) then
          .ok (dispMaybe mv ++ "$" ++ method)
        else
          .error .malformedBranch

/-- Success test for a key derivation result. -/
def keyOk (r : Except KeyErr String) : Bool :=
  match r with
  | .ok _ => true
  | .error _ => false

instance : DecidableEq (Except KeyErr String) := fun a b =>
  match a, b with
  | .ok x, .ok y =>
    if h : x = y then isTrue (by rw [h])
    else isFalse (by intro hc; cases hc; exact h rfl)
  | .error x, .error y =>
    if h : x = y then isTrue (by rw [h])
    else isFalse (by intro hc; cases hc; exact h rfl)
  | .ok _, .error _ => isFalse (by intro hc; cases hc)
  | .error _, .ok _ => isFalse (by intro hc; cases hc)

/-! ### Client transaction FSM (`client_fsm.go`, action-method variant)

States and inputs mirror the `client_state_*` / `client_input_*`
constants.  The FSM engine follows `fsm.Spin` as used here: look up the
outcome for the input in the current state's map; when absent, the state
is left unchanged and the returned error is discarded by every caller;
when present, move to the outcome state, run the action, and feed any
input the action returns (`act_trans_err`, `act_timeout` and
`act_passup_delete` return `client_input_delete`; the others return
`fsm.NO_INPUT`). -/

inductive CState where
  | calling
  | proceeding
  | completed
  | terminated
deriving DecidableEq

inductive CInput where
  | in1xx
  | in2xx
  | in300plus
  | inTimerA
  | inTimerB
  | inTimerD
  | inTransportErr
  | inDelete
deriving DecidableEq

/-- Action tags of the client FSM tables (`act_*` of the source). -/
inductive CAction where
  | noAction
  | actPassup
  | actPassupDelete
  | actInviteFinal
  | actNonInviteFinal
  | actResendInvite
  | actResendNonInvite
  | actAck
  | actTransErr
  | actTimeout
  | actDelete
deriving DecidableEq

/-- What a client transaction hands to the transport. -/
inductive SentItem where
  | originReq
  | ackReq
deriving DecidableEq

/-- Errors reported to the TU on the transaction's error channel. -/
inductive TxErr where
  | timeout
  | transport
deriving DecidableEq

/-- `initInviteFSM`: the INVITE client transition table, entry for entry
(including the explicit `fsm.NO_ACTION` self-loops); pairs absent from
the source's outcome maps are `none`. -/
def tableInvite : CState → CInput → Option (CState × CAction)
  | .calling, .in1xx => some (.proceeding, .actPassup)
  | .calling, .in2xx => some (.terminated, .actPassupDelete)
  | .calling, .in300plus => some (.completed, .actInviteFinal)
  | .calling, .inTimerA => some (.calling, .actResendInvite)
  | .calling, .inTimerB => some (.terminated, .actTimeout)
  | .calling, .inTransportErr => some (.terminated, .actTransErr)
  | .proceeding, .in1xx => some (.proceeding, .actPassup)
  | .proceeding, .in2xx => some (.terminated, .actPassupDelete)
  | .proceeding, .in300plus => some (.completed, .actInviteFinal)
  | .proceeding, .inTimerA => some (.proceeding, .noAction)
  | .proceeding, .inTimerB => some (.proceeding, .noAction)
  | .completed, .in1xx => some (.completed, .noAction)
  | .completed, .in2xx => some (.completed, .noAction)
  | .completed, .in300plus => some (.completed, .actAck)
  | .completed, .inTransportErr => some (.terminated, .actTransErr)
  | .completed, .inTimerA => some (.completed, .noAction)
  | .completed, .inTimerB => some (.completed, .noAction)
  | .completed, .inTimerD => some (.terminated, .actDelete)
  | .terminated, .in1xx => some (.terminated, .noAction)
  | .terminated, .in2xx => some (.terminated, .noAction)
  | .terminated, .in300plus => some (.terminated, .noAction)
  | .terminated, .inTimerA => some (.terminated, .noAction)
  | .terminated, .inTimerB => some (.terminated, .noAction)
  | .terminated, .inTimerD => some (.terminated, .noAction)
  | .terminated, .inDelete => some (.terminated, .actDelete)
  | _, _ => none

/-- `initNonInviteFSM`: the non-INVITE client transition table. -/
def tableNonInvite : CState → CInput → Option (CState × CAction)
  | .calling, .in1xx => some (.proceeding, .actPassup)
  | .calling, .in2xx => some (.completed, .actNonInviteFinal)
  | .calling, .in300plus => some (.completed, .actNonInviteFinal)
  | .calling, .inTimerA => some (.calling, .actResendNonInvite)
  | .calling, .inTimerB => some (.terminated, .actTimeout)
  | .calling, .inTransportErr => some (.terminated, .actTransErr)
  | .proceeding, .in1xx => some (.proceeding, .actPassup)
  | .proceeding, .in2xx => some (.completed, .actNonInviteFinal)
  | .proceeding, .in300plus => some (.completed, .actNonInviteFinal)
  | .proceeding, .inTimerA => some (.proceeding, .actResendNonInvite)
  | .proceeding, .inTimerB => some (.terminated, .actTimeout)
  | .proceeding, .inTransportErr => some (.terminated, .actTransErr)
  | .completed, .in1xx => some (.completed, .noAction)
  | .completed, .in2xx => some (.completed, .noAction)
  | .completed, .in300plus => some (.completed, .noAction)
  | .completed, .inTimerD => some (.terminated, .actDelete)
  | .completed, .inTimerA => some (.completed, .noAction)
  | .completed, .inTimerB => some (.completed, .noAction)
  | .terminated, .in1xx => some (.terminated, .noAction)
  | .terminated, .in2xx => some (.terminated, .noAction)
  | .terminated, .in300plus => some (.terminated, .noAction)
  | .terminated, .inTimerA => some (.terminated, .noAction)
  | .terminated, .inTimerB => some (.terminated, .noAction)
  | .terminated, .inTimerD => some (.terminated, .noAction)
  | .terminated, .inDelete => some (.terminated, .actDelete)
  | _, _ => none

/-- `initFSM` dispatch: INVITE origins use the INVITE table. -/
def clientTable (fsmInvite : Bool) : CState → CInput → Option (CState × CAction) :=
  if fsmInvite then tableInvite else tableNonInvite

/-- `ClientTransaction`: FSM state plus timers, transport sends, and the
TU-facing channels (modelled as lists).  `now` is the virtual clock in
milliseconds; `timer_a`/`timer_b`/`timer_d` hold absolute fire times
when armed.  `deleted` records that `Delete()` removed the transaction
from the manager's store. -/
structure ClientTx where
  origin : SipRequest
  dest : String
  fsmInvite : Bool
  state : CState
  now : Nat
  timer_a_time : Nat
  timer_a : Option Nat
  timer_b : Option Nat
  timer_d_time : Nat
  timer_d : Option Nat
  lastResp : Option SipResponse
  sent : List (Nat × SentItem)
  passedUp : List (Option SipResponse)
  errors : List (Nat × TxErr)
  deleted : Bool
deriving DecidableEq

/-- Execution of one client action: the updated transaction and the
input the action returns to the FSM engine (`fsm.NO_INPUT` is `none`).
`act_resend` doubles `timer_a_time` before resetting `timer_a`
(`act_non_invite_resend` additionally caps it at `T2`); the final
actions stop any pending `timer_d` and re-arm it with
`timer_d_time`. -/
def runCAction (tx : ClientTx) : CAction → ClientTx × Option CInput
  | .noAction => (tx, none)
  | .actPassup =>
    ({ tx with passedUp := tx.passedUp ++ [tx.lastResp] }, none)
  | .actPassupDelete =>
    ({ tx with passedUp := tx.passedUp ++ [tx.lastResp] }, some .inDelete)
  | .actInviteFinal =>
    ({ tx with
        passedUp := tx.passedUp ++ [tx.lastResp],
        sent := tx.sent ++ [(tx.now, .ackReq)],
        timer_d := some (tx.now + tx.timer_d_time) }, none)
  | .actNonInviteFinal =>
    ({ tx with
        passedUp := tx.passedUp ++ [tx.lastResp],
        timer_d := some (tx.now + tx.timer_d_time) }, none)
  | .actResendInvite =>
    ({ tx with
        timer_a_time := tx.timer_a_time * 2,
        timer_a := some (tx.now + tx.timer_a_time * 2),
        sent := tx.sent ++ [(tx.now, .originReq)] }, none)
  | .actResendNonInvite =>
    ({ tx with
        timer_a_time := min (tx.timer_a_time * 2) T2,
        timer_a := some (tx.now + min (tx.timer_a_time * 2) T2),
        sent := tx.sent ++ [(tx.now, .originReq)] }, none)
  | .actAck =>
    ({ tx with sent := tx.sent ++ [(tx.now, .ackReq)] }, none)
  | .actTransErr =>
    ({ tx with errors := tx.errors ++ [(tx.now, .transport)] }, some .inDelete)
  | .actTimeout =>
    ({ tx with errors := tx.errors ++ [(tx.now, .timeout)] }, some .inDelete)
  | .actDelete =>
    ({ tx with deleted := true }, none)

/-- The `fsm.Spin` loop.  The chains in the client tables have length at
most two (an action may return `client_input_delete` whose action
returns `NO_INPUT`), so fuel 3 is never exhausted. -/
def spinAux : Nat → ClientTx → CInput → ClientTx
  | 0, tx, _ => tx
  | n + 1, tx, i =>
    match clientTable tx.fsmInvite tx.state i with
    | none => tx
    | some (s, a) =>
      match runCAction { tx with state := s } a with
      | (tx2, none) => tx2
      | (tx2, some i2) => spinAux n tx2 i2

def clientSpin (tx : ClientTx) (i : CInput) : ClientTx :=
  spinAux 3 tx i

/-- Status classification of `ClientTransaction.Receive`. -/
def classifyStatus (code : Nat) : CInput :=
  if code < 200 then .in1xx
  else if code < 300 then .in2xx
  else .in300plus

/-- `ClientTransaction.Receive` on a response: remember it as
`lastResp`, then spin the classified input. -/
def ClientTx.receiveRes (tx : ClientTx) (res : SipResponse) : ClientTx :=
  clientSpin { tx with lastResp := some res } (classifyStatus res.statusCode)

/-- `ClientTransaction.Receive` on an arbitrary message: a request is
logged and discarded before any FSM input is fed. -/
def ClientTx.receiveMsg (tx : ClientTx) : SipMsg → ClientTx
  | .req _ => tx
  | .res r => tx.receiveRes r

/-- `Manager.Send` (RFC-correct variant): build the transaction, pick
the FSM by method, arm `timer_a` at `Timer_A` only on a non-reliable
transport, always arm `timer_b` at `Timer_B`, set `timer_d_time` to
`Timer_D` (non-reliable) or 0 (reliable), and dispatch the initial send
(modelled as succeeding).  The store put is handled at the manager
level. -/
def clientSend (req : SipRequest) (dest : String) (reliable : Bool) : ClientTx :=
  { origin := req
    dest := dest
    fsmInvite := req.method == "INVITE"
    state := .calling
    now := 0
    timer_a_time := if reliable then 0 else Timer_A
    timer_a := if reliable then none else some Timer_A
    timer_b := some Timer_B
    timer_d_time := if reliable then 0 else Timer_D
    timer_d := none
    lastResp := none
    sent := [(0, .originReq)]
    passedUp := []
    errors := []
    deleted := false }

/-! ### Timer scheduler

A small deterministic scheduler over the virtual clock: fire the
earliest armed timer (priority `timer_a`, `timer_b`, `timer_d` on a tie,
which never occurs in the verified runs), clear it, and feed the FSM the
corresponding input. -/

def nextEvent (tx : ClientTx) : Option (Nat × CInput) :=
  let cand : List (Nat × CInput) :=
    (match tx.timer_a with | some t => [(t, .inTimerA)] | none => [])
      ++ (match tx.timer_b with | some t => [(t, .inTimerB)] | none => [])
      ++ (match tx.timer_d with | some t => [(t, .inTimerD)] | none => [])
  cand.foldl
    (fun acc c =>
      match acc with
      | none => some c
      | some b => if c.1 < b.1 then some c else acc)
    none

/-- Clear the timer whose input is about to be delivered (a fired Go
timer is expended until reset). -/
def clearTimer (tx : ClientTx) : CInput → ClientTx
  | .inTimerA => { tx with timer_a := none }
  | .inTimerB => { tx with timer_b := none }
  | .inTimerD => { tx with timer_d := none }
  | _ => tx

def fireNext (tx : ClientTx) : ClientTx :=
  match nextEvent tx with
  | none => tx
  | some (t, i) => clientSpin (clearTimer { tx with now := t } i) i

def run : Nat → ClientTx → ClientTx
  | 0, tx => tx
  | n + 1, tx =>
    match nextEvent tx with
    | none => tx
    | some _ => run n (fireNext tx)

/-! ### Observable part of a client transaction

Neither the FSM actions nor the scheduler ever read `origin` or `dest`
(they only append opaque send markers), so the simulation factors
through the projection that forgets them.  `runO` and friends repeat the
definitions above on the projected state; the `obs_*` lemmas state the
commuting squares, which let concrete schedule computations be
transported to transactions with arbitrary origin requests. -/

structure ClientObs where
  fsmInvite : Bool
  state : CState
  now : Nat
  timer_a_time : Nat
  timer_a : Option Nat
  timer_b : Option Nat
  timer_d_time : Nat
  timer_d : Option Nat
  lastResp : Option SipResponse
  sent : List (Nat × SentItem)
  passedUp : List (Option SipResponse)
  errors : List (Nat × TxErr)
  deleted : Bool
deriving DecidableEq

def ClientTx.obs (tx : ClientTx) : ClientObs :=
  { fsmInvite := tx.fsmInvite
    state := tx.state
    now := tx.now
    timer_a_time := tx.timer_a_time
    timer_a := tx.timer_a
    timer_b := tx.timer_b
    timer_d_time := tx.timer_d_time
    timer_d := tx.timer_d
    lastResp := tx.lastResp
    sent := tx.sent
    passedUp := tx.passedUp
    errors := tx.errors
    deleted := tx.deleted }

def runOAction (tx : ClientObs) : CAction → ClientObs × Option CInput
  | .noAction => (tx, none)
  | .actPassup =>
    ({ tx with passedUp := tx.passedUp ++ [tx.lastResp] }, none)
  | .actPassupDelete =>
    ({ tx with passedUp := tx.passedUp ++ [tx.lastResp] }, some .inDelete)
  | .actInviteFinal =>
    ({ tx with
        passedUp := tx.passedUp ++ [tx.lastResp],
        sent := tx.sent ++ [(tx.now, .ackReq)],
        timer_d := some (tx.now + tx.timer_d_time) }, none)
  | .actNonInviteFinal =>
    ({ tx with
        passedUp := tx.passedUp ++ [tx.lastResp],
        timer_d := some (tx.now + tx.timer_d_time) }, none)
  | .actResendInvite =>
    ({ tx with
        timer_a_time := tx.timer_a_time * 2,
        timer_a := some (tx.now + tx.timer_a_time * 2),
        sent := tx.sent ++ [(tx.now, .originReq)] }, none)
  | .actResendNonInvite =>
    ({ tx with
        timer_a_time := min (tx.timer_a_time * 2) T2,
        timer_a := some (tx.now + min (tx.timer_a_time * 2) T2),
        sent := tx.sent ++ [(tx.now, .originReq)] }, none)
  | .actAck =>
    ({ tx with sent := tx.sent ++ [(tx.now, .ackReq)] }, none)
  | .actTransErr =>
    ({ tx with errors := tx.errors ++ [(tx.now, .transport)] }, some .inDelete)
  | .actTimeout =>
    ({ tx with errors := tx.errors ++ [(tx.now, .timeout)] }, some .inDelete)
  | .actDelete =>
    ({ tx with deleted := true }, none)

def spinAuxO : Nat → ClientObs → CInput → ClientObs
  | 0, tx, _ => tx
  | n + 1, tx, i =>
    match clientTable tx.fsmInvite tx.state i with
    | none => tx
    | some (s, a) =>
      match runOAction { tx with state := s } a with
      | (tx2, none) => tx2
      | (tx2, some i2) => spinAuxO n tx2 i2

def clientSpinO (tx : ClientObs) (i : CInput) : ClientObs :=
  spinAuxO 3 tx i

def nextEventO (tx : ClientObs) : Option (Nat × CInput) :=
  let cand : List (Nat × CInput) :=
    (match tx.timer_a with | some t => [(t, .inTimerA)] | none => [])
      ++ (match tx.timer_b with | some t => [(t, .inTimerB)] | none => [])
      ++ (match tx.timer_d with | some t => [(t, .inTimerD)] | none => [])
  cand.foldl
    (fun acc c =>
      match acc with
      | none => some c
      | some b => if c.1 < b.1 then some c else acc)
    none

def clearTimerO (tx : ClientObs) : CInput → ClientObs
  | .inTimerA => { tx with timer_a := none }
  | .inTimerB => { tx with timer_b := none }
  | .inTimerD => { tx with timer_d := none }
  | _ => tx

def fireNextO (tx : ClientObs) : ClientObs :=
  match nextEventO tx with
  | none => tx
  | some (t, i) => clientSpinO (clearTimerO { tx with now := t } i) i

def runO : Nat → ClientObs → ClientObs
  | 0, tx => tx
  | n + 1, tx =>
    match nextEventO tx with
    | none => tx
    | some _ => runO n (fireNextO tx)

theorem obs_runCAction (tx : ClientTx) (a : CAction) :
    runOAction tx.obs a = ((runCAction tx a).1.obs, (runCAction tx a).2) := by
  cases a <;> rfl

theorem obs_spinAux : ∀ (n : Nat) (tx : ClientTx) (i : CInput),
    spinAuxO n tx.obs i = (spinAux n tx i).obs := by
  intro n
  induction n with
  | zero => intro tx i; rfl
  | succ n ih =>
    intro tx i
    show (match clientTable tx.fsmInvite tx.state i with
          | none => tx.obs
          | some (s, a) =>
            match runOAction ({ tx with state := s } : ClientTx).obs a with
            | (tx2, none) => tx2
            | (tx2, some i2) => spinAuxO n tx2 i2)
        = (spinAux (n + 1) tx i).obs
    cases htab : clientTable tx.fsmInvite tx.state i with
    | none => simp only [spinAux, htab]
    | some sa =>
      obtain ⟨s, a⟩ := sa
      simp only [spinAux, htab, obs_runCAction]
      cases hact : runCAction { tx with state := s } a with
      | mk tx2 oi =>
        cases oi with
        | none => rfl
        | some i2 => exact ih tx2 i2

theorem obs_clientSpin (tx : ClientTx) (i : CInput) :
    clientSpinO tx.obs i = (clientSpin tx i).obs :=
  obs_spinAux 3 tx i

theorem obs_nextEvent (tx : ClientTx) : nextEventO tx.obs = nextEvent tx := rfl

theorem obs_clearTimer (tx : ClientTx) (i : CInput) :
    clearTimerO tx.obs i = (clearTimer tx i).obs := by
  cases i <;> rfl

theorem obs_fireNext (tx : ClientTx) : fireNextO tx.obs = (fireNext tx).obs := by
  show (match nextEventO tx.obs with
        | none => tx.obs
        | some (t, i) => clientSpinO (clearTimerO { tx.obs with now := t } i) i)
      = (fireNext tx).obs
  rw [obs_nextEvent]
  cases hne : nextEvent tx with
  | none => simp only [fireNext, hne]
  | some ti =>
    obtain ⟨t, i⟩ := ti
    show clientSpinO (clearTimerO ({ tx with now := t } : ClientTx).obs i) i
        = (fireNext tx).obs
    rw [obs_clearTimer, obs_clientSpin]
    simp only [fireNext, hne]

theorem obs_run : ∀ (n : Nat) (tx : ClientTx), runO n tx.obs = (run n tx).obs := by
  intro n
  induction n with
  | zero => intro tx; rfl
  | succ n ih =>
    intro tx
    show (match nextEventO tx.obs with
          | none => tx.obs
          | some _ => runO n (fireNextO tx.obs))
        = (run (n + 1) tx).obs
    rw [obs_nextEvent]
    cases hne : nextEvent tx with
    | none => simp only [run, hne]
    | some ti =>
      rw [obs_fireNext, ih (fireNext tx)]
      simp only [run, hne]

/-! ### Server transaction

`ServerTransaction.Receive`, `Respond` and `Trying` are embedded from
`server.go`.  The server FSM transition tables themselves
(`server_fsm.go`) are not among the extracted sources, only the
`server_input_*` uses; the tables below are therefore modelled from the
spec. -/

inductive SState where
  | proceeding
  | completed
  | confirmed
  | terminated
deriving DecidableEq

inductive SInput where
  | reqRetrans
  | ackIn
  | user1xx
  | user2xx
  | user300
  | timerG
  | timerH
  | timerI
  | transportErr
deriving DecidableEq

inductive SAction where
  | noAction
  | sendLast
  | sendLastDelete
  | send300
  | timerGRetrans
  | timeoutDelete
  | startTimerI
  | deleteOnly
  | reportDelete
deriving DecidableEq

/-- Modelled from the spec: the INVITE server transition table of
§4.5 (`server_fsm.go` is missing from the extracted sources).  Rows:
retransmitted request resends the last response if present; `user_1xx`
sends the response; `user_2xx` sends and deletes; `user_300_plus` sends
and starts `timer_g` (non-reliable) and `timer_h`; in `completed`,
`timer_g` retransmits with doubled-capped interval, `timer_h` times out,
and `ack` moves to `confirmed` starting `timer_i`; `timer_i` deletes;
`transport_err` terminates from any state. -/
def serverTableInvite : SState → SInput → Option (SState × SAction)
  | .proceeding, .reqRetrans => some (.proceeding, .sendLast)
  | .proceeding, .user1xx => some (.proceeding, .sendLast)
  | .proceeding, .user2xx => some (.terminated, .sendLastDelete)
  | .proceeding, .user300 => some (.completed, .send300)
  | .completed, .reqRetrans => some (.completed, .sendLast)
  | .completed, .timerG => some (.completed, .timerGRetrans)
  | .completed, .timerH => some (.terminated, .timeoutDelete)
  | .completed, .ackIn => some (.confirmed, .startTimerI)
  | .confirmed, .timerI => some (.terminated, .deleteOnly)
  | .proceeding, .transportErr => some (.terminated, .reportDelete)
  | .completed, .transportErr => some (.terminated, .reportDelete)
  | .confirmed, .transportErr => some (.terminated, .reportDelete)
  | .terminated, .transportErr => some (.terminated, .reportDelete)
  | _, _ => none

/-- Modelled from the spec: the non-INVITE server table of §4.5 — no
`timer_g`, both final classes go to `completed`, retransmitted requests
resend the last response. -/
def serverTableNonInvite : SState → SInput → Option (SState × SAction)
  | .proceeding, .reqRetrans => some (.proceeding, .sendLast)
  | .proceeding, .user1xx => some (.proceeding, .sendLast)
  | .proceeding, .user2xx => some (.completed, .sendLast)
  | .proceeding, .user300 => some (.completed, .sendLast)
  | .completed, .reqRetrans => some (.completed, .sendLast)
  | .proceeding, .transportErr => some (.terminated, .reportDelete)
  | .completed, .transportErr => some (.terminated, .reportDelete)
  | .terminated, .transportErr => some (.terminated, .reportDelete)
  | _, _ => none

def serverTable (isInvite : Bool) : SState → SInput → Option (SState × SAction) :=
  if isInvite then serverTableInvite else serverTableNonInvite

/-- `ServerTransaction`: origin request, FSM state, last response to be
sent, the responses handed to the transport, the `Ack()` channel, the
error channel, and the timers. -/
structure ServerTx where
  origin : SipRequest
  dest : String
  reliable : Bool
  state : SState
  now : Nat
  lastResp : Option SipResponse
  sentS : List (Nat × SipResponse)
  ackCh : List SipRequest
  errS : List (Nat × TxErr)
  timer_g : Option Nat
  timer_g_time : Nat
  timer_h : Option Nat
  timer_i : Option Nat
  deleted : Bool
deriving DecidableEq

/-- Modelled from the spec: the server FSM actions of §4.5.  Sending a
response sends `lastResp` when present. -/
def runSAction (tx : ServerTx) : SAction → ServerTx
  | .noAction => tx
  | .sendLast =>
    match tx.lastResp with
    | some r => { tx with sentS := tx.sentS ++ [(tx.now, r)] }
    | none => tx
  | .sendLastDelete =>
    match tx.lastResp with
    | some r => { tx with sentS := tx.sentS ++ [(tx.now, r)], deleted := true }
    | none => { tx with deleted := true }
  | .send300 =>
    let tx1 :=
      match tx.lastResp with
      | some r => { tx with sentS := tx.sentS ++ [(tx.now, r)] }
      | none => tx
    { tx1 with
        timer_g := if tx.reliable then none else some (tx.now + T1),
        timer_g_time := T1,
        timer_h := some (tx.now + Timer_H) }
  | .timerGRetrans =>
    let d := min (tx.timer_g_time * 2) T2
    let tx1 :=
      match tx.lastResp with
      | some r => { tx with sentS := tx.sentS ++ [(tx.now, r)] }
      | none => tx
    { tx1 with timer_g_time := d, timer_g := some (tx.now + d) }
  | .timeoutDelete =>
    { tx with errS := tx.errS ++ [(tx.now, .timeout)], deleted := true }
  | .startTimerI =>
    { tx with timer_i := some (tx.now + (if tx.reliable then 0 else T4)) }
  | .deleteOnly =>
    { tx with deleted := true }
  | .reportDelete =>
    { tx with errS := tx.errS ++ [(tx.now, .transport)], deleted := true }

/-- One `fsm.Spin` of the server FSM (server actions return no chained
input). -/
def serverSpin (tx : ServerTx) (i : SInput) : ServerTx :=
  match serverTable (tx.origin.method == "INVITE") tx.state i with
  | none => tx
  | some (s, a) => runSAction { tx with state := s } a

/-- `ServerTransaction.Receive` on a request (`server.go`): the origin
method yields `server_input_request`; an ACK is pushed on the `Ack()`
channel and yields `server_input_ack`; any other method is logged and
discarded before any FSM input is fed. -/
def ServerTx.receiveReq (tx : ServerTx) (req : SipRequest) : ServerTx :=
  if req.method == tx.origin.method then
    serverSpin tx .reqRetrans
  else if req.method == "ACK" then
    serverSpin { tx with ackCh := tx.ackCh ++ [req] } .ackIn
  else
    tx

/-- `ServerTransaction.Receive` on an arbitrary message: a response is
logged and discarded. -/
def ServerTx.receiveMsg (tx : ServerTx) : SipMsg → ServerTx
  | .res _ => tx
  | .req r => tx.receiveReq r

/-- The `100 Trying` response built by `ServerTransaction.Trying` (no
extra headers): the origin's SIP version with Via, From, To, Call-Id,
CSeq and Timestamp copied from the origin request. -/
def mkTrying (origin : SipRequest) : SipResponse :=
  { statusCode := 100
    reason := "Trying"
    sipVersion := origin.sipVersion
    core :=
      { via := origin.core.via
        fromH := origin.core.fromH
        toH := origin.core.toH
        callId := origin.core.callId
        cseq := origin.core.cseq
        timestamp := origin.core.timestamp } }

/-- `ServerTransaction.Trying`: remember the `100 Trying` as the last
response and drive the FSM with `server_input_user_1xx`. -/
def ServerTx.trying (tx : ServerTx) : ServerTx :=
  serverSpin { tx with lastResp := some (mkTrying tx.origin) } .user1xx

/-- `ServerTransaction.Respond`: classify the response and drive the
FSM. -/
def ServerTx.respond (tx : ServerTx) (res : SipResponse) : ServerTx :=
  let i : SInput :=
    if res.statusCode < 200 then .user1xx
    else if res.statusCode < 300 then .user2xx
    else .user300
  serverSpin { tx with lastResp := some res } i

/-! ### Transaction manager (`Manager` of the RFC-correct variant) -/

inductive TxEntry where
  | client (tx : ClientTx)
  | server (tx : ServerTx)
deriving DecidableEq

/-- `Manager`: the store (keyed map, modelled as an association list),
the unmatched-responses channel and the new-server-transaction
channel. -/
structure Mngr where
  reliable : Bool
  txs : List (String × TxEntry)
  responses : List SipResponse
  requests : List ServerTx
deriving DecidableEq

/-- `store.putTx`: map insert, replacing an existing entry. -/
def putTxL : List (String × TxEntry) → String → TxEntry → List (String × TxEntry)
  | [], k, e => [(k, e)]
  | (k1, e1) :: r, k, e =>
    if k1 == k then (k, e) :: r else (k1, e1) :: putTxL r k e

/-- `Manager.correlate`: compute the client key from the response; on a
derivation error, a store miss, or a non-client entry, push the response
on the unmatched `Responses()` channel; otherwise deliver it to the
stored client transaction via `Receive`. -/
def Mngr.correlate (m : Mngr) (res : SipResponse) : Mngr :=
  match makeClientTxKey res.core with
  | .error _ => { m with responses := m.responses ++ [res] }
  | .ok k =>
    match m.txs.lookup k with
    | some (.client tx) =>
      { m with txs := putTxL m.txs k (.client (tx.receiveRes res)) }
    | _ => { m with responses := m.responses ++ [res] }

/-- The fresh server transaction built by `Manager.request` before any
FSM input: destination from the top Via hop with port defaulting to
5060, initial FSM state `proceeding`, empty channels. -/
def newServerTx (reliable : Bool) (req : SipRequest) (hop : ViaHop) : ServerTx :=
  { origin := req
    dest := hop.host ++ ":" ++ toString (hop.port.getD 5060)
    reliable := reliable
    state := .proceeding
    now := 0
    lastResp := none
    sentS := []
    ackCh := []
    errS := []
    timer_g := none
    timer_g_time := 0
    timer_h := none
    timer_i := none
    deleted := false }

/-- The creation path of `Manager.request`: drop the request when it has
no top Via hop; otherwise build the transaction, auto-send `100 Trying`
only when the method is INVITE, store it under its server key (a key
derivation failure is only logged), and enqueue it on `Requests()`. -/
def Mngr.createServerTx (m : Mngr) (req : SipRequest) : Mngr :=
  match req.core.via with
  | none => m
  | some hop =>
    let tx0 := newServerTx m.reliable req hop
    let tx1 := if req.method == "INVITE" then tx0.trying else tx0
    let txs1 :=
      match makeServerTxKey req with
      | .ok k => putTxL m.txs k (.server tx1)
      | .error _ => m.txs
    { m with txs := txs1, requests := m.requests ++ [tx1] }

/-- `Manager.request`: deliver the request to the stored server
transaction matching its server key when there is one, otherwise take
the creation path. -/
def Mngr.request (m : Mngr) (req : SipRequest) : Mngr :=
  match makeServerTxKey req with
  | .ok k =>
    match m.txs.lookup k with
    | some (.server tx) =>
      { m with txs := putTxL m.txs k (.server (tx.receiveReq req)) }
    | _ => m.createServerTx req
  | .error _ => m.createServerTx req

/-! ### Spec-side definitions

Definitions written from the spec's words, for comparison with the
embedded code. -/

/-- Modelled from the spec: the pairs (state, input) listed in the
INVITE-client transition table of §4.4. -/
def specListedInvite : CState → CInput → Bool
  | .calling, .in1xx => true
  | .calling, .in2xx => true
  | .calling, .in300plus => true
  | .calling, .inTimerA => true
  | .calling, .inTimerB => true
  | .calling, .inTransportErr => true
  | .proceeding, .in1xx => true
  | .proceeding, .in2xx => true
  | .proceeding, .in300plus => true
  | .completed, .in300plus => true
  | .completed, .inTransportErr => true
  | .completed, .inTimerD => true
  | .terminated, .inDelete => true
  | _, _ => false

/-- Modelled from the spec: the pairs (state, input) listed for the
non-INVITE client variant — the §4.4 table amended by the stated
differences (unified final action for `2xx`/`300+`, `timer_a` keeps
resending in `proceeding`, no ACK rows). -/
def specListedNonInvite : CState → CInput → Bool
  | .calling, .in1xx => true
  | .calling, .in2xx => true
  | .calling, .in300plus => true
  | .calling, .inTimerA => true
  | .calling, .inTimerB => true
  | .calling, .inTransportErr => true
  | .proceeding, .in1xx => true
  | .proceeding, .in2xx => true
  | .proceeding, .in300plus => true
  | .proceeding, .inTimerA => true
  | .completed, .inTransportErr => true
  | .completed, .inTimerD => true
  | .terminated, .inDelete => true
  | _, _ => false

/-- Modelled from the spec: the claimed server-key derivation whose
RFC 3261 path keys on the *request-line* method (with ACK folded to
INVITE), as the claim and §4.1 word it. -/
def specServerTxKeyC4 (req : SipRequest) : Except KeyErr String :=
  match req.core.via with
  | none => .error .missingVia
  | some hop =>
    match req.core.cseq with
    | none => .error .missingCSeq
    | some cseq =>
      match hop.branch with
      | some mv =>
        if isRFC3261BranchStr (dispMaybe mv) then
          match hop.port with
          | some p =>
            .ok (String.intercalate "$"
              [dispMaybe mv, hop.host, toString p, foldACK req.method])
          | none => .error .nilPortPanic
        else
          match req.core.fromTag with
          | none => .error .missingFromTag
          | some ftag =>
            match req.core.callId with
            | none => .error .missingCallId
            | some cid =>
              .ok (String.intercalate "$"
                [req.recipient, dispMaybe ftag, cid, foldACK cseq.methodName,
                 toString cseq.seqNo, hop.render])
      | none =>
        match req.core.fromTag with
        | none => .error .missingFromTag
        | some ftag =>
          match req.core.callId with
          | none => .error .missingCallId
          | some cid =>
            .ok (String.intercalate "$"
              [req.recipient, dispMaybe ftag, cid, foldACK cseq.methodName,
               toString cseq.seqNo, hop.render])

/-! ### Concrete fixtures -/

/-- An OPTIONS request with an RFC 3261 branch. -/
def reqOptions : SipRequest :=
  { method := "OPTIONS"
    recipient := "sip:bob@example.com"
    sipVersion := "SIP/2.0"
    core :=
      { via := some { transp := "UDP", host := "client.example.com",
                      port := some 5060, branch := some (some "z9hG4bKabc") }
        fromH := some { uri := "sip:alice@example.com", tag := some (some "ft1") }
        toH := some { uri := "sip:bob@example.com", tag := none }
        callId := some "call1@example.com"
        cseq := some { seqNo := 1, methodName := "OPTIONS" }
        timestamp := none } }

/-- An INVITE request with an RFC 3261 branch. -/
def reqInvite : SipRequest :=
  { method := "INVITE"
    recipient := "sip:bob@example.com"
    sipVersion := "SIP/2.0"
    core :=
      { via := some { transp := "UDP", host := "client.example.com",
                      port := some 5060, branch := some (some "z9hG4bKinv") }
        fromH := some { uri := "sip:alice@example.com", tag := some (some "ft2") }
        toH := some { uri := "sip:bob@example.com", tag := none }
        callId := some "call2@example.com"
        cseq := some { seqNo := 1, methodName := "INVITE" }
        timestamp := some "54" } }

/-- A request whose request-line method (INVITE) disagrees with its CSeq
method (OPTIONS). -/
def reqMismatch : SipRequest :=
  { reqInvite with
      core := { reqInvite.core with
                  cseq := some { seqNo := 1, methodName := "OPTIONS" } } }

/-- A non-INVITE client transaction sitting in `proceeding` at
t = 1000 ms. -/
def txNonInvProc : ClientTx :=
  { origin := reqOptions
    dest := "server.example.com:5060"
    fsmInvite := false
    state := .proceeding
    now := 1000
    timer_a_time := 1000
    timer_a := some 1500
    timer_b := some 32000
    timer_d_time := 32000
    timer_d := none
    lastResp := none
    sent := [(0, .originReq)]
    passedUp := []
    errors := []
    deleted := false }

/-! ### Claims -/

/-- C1: the INVITE client transaction FSM realises exactly the §4.4
transition table: in `calling`, `1xx` moves to `proceeding` passing the
response up; `2xx` moves to `terminated` passing the response up and
deleting the transaction; `300+` moves to `completed` passing the
response up, sending an ACK and starting `timer_d`; `timer_a` stays in
`calling`, doubles the `timer_a` interval, resets `timer_a` and resends
the request; `timer_b` moves to `terminated` reporting a timeout (and
deleting); in `proceeding`, `timer_a` and `timer_b` cause no action; in
`completed`, a further `300+` re-sends the ACK and stays in `completed`,
and `timer_d` moves to `terminated` and deletes the transaction. -/
theorem inviteClientFsm_matches_spec_table (tx : ClientTx) :
    (clientSpin { tx with fsmInvite := true, state := CState.calling } CInput.in1xx
      = { tx with
            fsmInvite := true, state := CState.proceeding,
            passedUp := tx.passedUp ++ [tx.lastResp] })
    ∧ (clientSpin { tx with fsmInvite := true, state := CState.calling } CInput.in2xx
      = { tx with
            fsmInvite := true, state := CState.terminated,
            passedUp := tx.passedUp ++ [tx.lastResp],
            deleted := true })
    ∧ (clientSpin { tx with fsmInvite := true, state := CState.calling } CInput.in300plus
      = { tx with
            fsmInvite := true, state := CState.completed,
            passedUp := tx.passedUp ++ [tx.lastResp],
            sent := tx.sent ++ [(tx.now, SentItem.ackReq)],
            timer_d := some (tx.now + tx.timer_d_time) })
    ∧ (clientSpin { tx with fsmInvite := true, state := CState.calling } CInput.inTimerA
      = { tx with
            fsmInvite := true, state := CState.calling,
            timer_a_time := tx.timer_a_time * 2,
            timer_a := some (tx.now + tx.timer_a_time * 2),
            sent := tx.sent ++ [(tx.now, SentItem.originReq)] })
    ∧ (clientSpin { tx with fsmInvite := true, state := CState.calling } CInput.inTimerB
      = { tx with
            fsmInvite := true, state := CState.terminated,
            errors := tx.errors ++ [(tx.now, TxErr.timeout)],
            deleted := true })
    ∧ (clientSpin { tx with fsmInvite := true, state := CState.proceeding } CInput.inTimerA
      = { tx with fsmInvite := true, state := CState.proceeding })
    ∧ (clientSpin { tx with fsmInvite := true, state := CState.proceeding } CInput.inTimerB
      = { tx with fsmInvite := true, state := CState.proceeding })
    ∧ (clientSpin { tx with fsmInvite := true, state := CState.completed } CInput.in300plus
      = { tx with
            fsmInvite := true, state := CState.completed,
            sent := tx.sent ++ [(tx.now, SentItem.ackReq)] })
    ∧ (clientSpin { tx with fsmInvite := true, state := CState.completed } CInput.inTimerD
      = { tx with
            fsmInvite := true, state := CState.terminated,
            deleted := true }) :=
  ⟨rfl, rfl, rfl, rfl, rfl, rfl, rfl, rfl, rfl⟩

/-- C2 counterexample: for the non-INVITE variant, `timer_b` in
`proceeding` is not listed in the spec's transition table, yet the code
is not a no-op there — it times the transaction out: the state becomes
`terminated`, a timeout error is reported and the transaction is
deleted. -/
theorem nonInvite_proceeding_timerB_not_noop :
    specListedNonInvite CState.proceeding CInput.inTimerB = false
    ∧ clientSpin txNonInvProc CInput.inTimerB ≠ txNonInvProc
    ∧ (clientSpin txNonInvProc CInput.inTimerB).state = CState.terminated
    ∧ (clientSpin txNonInvProc CInput.inTimerB).errors = [(1000, TxErr.timeout)]
    ∧ (clientSpin txNonInvProc CInput.inTimerB).deleted = true := by
  refine ⟨rfl, ?_, rfl, rfl, rfl⟩
  decide

/-- C2 (amended): feeding a client transaction FSM an input not listed
in the spec's transition table for the current state is a no-op — the
state is unchanged, no action runs, and no error is surfaced — for the
INVITE variant in all cases, and for the non-INVITE variant except in
`proceeding`, where `timer_b` still times the transaction out and
`transport_err` still terminates it (the `calling` rows persist). -/
theorem clientFsm_unlisted_inputs_noop (tx : ClientTx) (s : CState) (i : CInput) :
    (specListedInvite s i = false →
      clientSpin { tx with fsmInvite := true, state := s } i
        = { tx with fsmInvite := true, state := s })
    ∧ (specListedNonInvite s i = false →
      ¬(s = CState.proceeding ∧ (i = CInput.inTimerB ∨ i = CInput.inTransportErr)) →
      clientSpin { tx with fsmInvite := false, state := s } i
        = { tx with fsmInvite := false, state := s }) := by
  constructor
  · intro h
    cases s <;> cases i <;> first
      | rfl
      | exact absurd h (by decide)
  · intro h hex
    cases s <;> cases i <;> first
      | rfl
      | exact absurd h (by decide)
      | exact absurd ⟨rfl, by decide⟩ hex

/-- C4 counterexample: on a request whose request-line method (INVITE)
differs from its CSeq method (OPTIONS), `makeServerTxKey` keys on the
CSeq method, not on the request method the claim states: the derived key
ends in `OPTIONS` where the claimed tuple ends in `INVITE`. -/
theorem serverTxKey_method_counterexample :
    makeServerTxKey reqMismatch
      = Except.ok "z9hG4bKinv$client.example.com$5060$OPTIONS"
    ∧ specServerTxKeyC4 reqMismatch
      = Except.ok "z9hG4bKinv$client.example.com$5060$INVITE"
    ∧ makeServerTxKey reqMismatch ≠ specServerTxKeyC4 reqMismatch :=
  ⟨rfl, rfl, by decide⟩

/-- C4 (amended): server-key derivation fetches the top Via hop and the
CSeq first (failing when either is missing); when the branch is in
RFC 3261 form the key is the tuple (branch, top-Via host, top-Via port,
CSeq method with ACK folded to INVITE) — the method comes from the CSeq
header, not the request line — and the top-Via port is dereferenced
unconditionally (a panic when absent); otherwise the key is the RFC 2543
fallback tuple (request-URI, From-tag, Call-ID, folded CSeq method, CSeq
sequence number, top Via), which additionally fails only when the From
tag or the Call-ID is missing. -/
theorem makeServerTxKey_characterisation (req : SipRequest) :
    (req.core.via = none → makeServerTxKey req = .error .missingVia)
    ∧ (∀ hop, req.core.via = some hop → req.core.cseq = none →
        makeServerTxKey req = .error .missingCSeq)
    ∧ (∀ hop cseq mv p, req.core.via = some hop → req.core.cseq = some cseq →
        hop.branch = some mv → isRFC3261BranchStr (dispMaybe mv) = true →
        hop.port = some p →
        makeServerTxKey req = .ok (String.intercalate "$"
          [dispMaybe mv, hop.host, toString p, foldACK cseq.methodName]))
    ∧ (∀ hop cseq mv, req.core.via = some hop → req.core.cseq = some cseq →
        hop.branch = some mv → isRFC3261BranchStr (dispMaybe mv) = true →
        hop.port = none →
        makeServerTxKey req = .error .nilPortPanic)
    ∧ (∀ hop cseq ftag cid, req.core.via = some hop → req.core.cseq = some cseq →
        rfc3261Branch req.core = false →
        req.core.fromTag = some ftag → req.core.callId = some cid →
        makeServerTxKey req = .ok (String.intercalate "$"
          [req.recipient, dispMaybe ftag, cid, foldACK cseq.methodName,
           toString cseq.seqNo, hop.render]))
    ∧ (∀ hop cseq, req.core.via = some hop → req.core.cseq = some cseq →
        rfc3261Branch req.core = false → req.core.fromTag = none →
        makeServerTxKey req = .error .missingFromTag)
    ∧ (∀ hop cseq ftag, req.core.via = some hop → req.core.cseq = some cseq →
        rfc3261Branch req.core = false → req.core.fromTag = some ftag →
        req.core.callId = none →
        makeServerTxKey req = .error .missingCallId) := by
  refine ⟨?_, ?_, ?_, ?_, ?_, ?_, ?_⟩
  · intro hv
    simp [makeServerTxKey, hv]
  · intro hop hv hc
    simp [makeServerTxKey, hv, hc]
  · intro hop cseq mv p hv hc hb hr hp
    simp [makeServerTxKey, hv, hc, hb, hr, hp]
  · intro hop cseq mv hv hc hb hr hp
    simp [makeServerTxKey, hv, hc, hb, hr, hp]
  · intro hop cseq ftag cid hv hc hr hft hcid
    simp only [rfc3261Branch, hv] at hr
    cases hb : hop.branch with
    | none => simp [makeServerTxKey, hv, hc, hb, hft, hcid]
    | some mv =>
      simp only [hb] at hr
      simp [makeServerTxKey, hv, hc, hb, hr, hft, hcid]
  · intro hop cseq hv hc hr hft
    simp only [rfc3261Branch, hv] at hr
    cases hb : hop.branch with
    | none => simp [makeServerTxKey, hv, hc, hb, hft]
    | some mv =>
      simp only [hb] at hr
      simp [makeServerTxKey, hv, hc, hb, hr, hft]
  · intro hop cseq ftag hv hc hr hft hcid
    simp only [rfc3261Branch, hv] at hr
    cases hb : hop.branch with
    | none => simp [makeServerTxKey, hv, hc, hb, hft, hcid]
    | some mv =>
      simp only [hb] at hr
      simp [makeServerTxKey, hv, hc, hb, hr, hft, hcid]

/-- C4 witness: the RFC 3261 server key for a concrete INVITE. -/
theorem makeServerTxKey_characterisation_witness :
    makeServerTxKey reqInvite
      = Except.ok "z9hG4bKinv$client.example.com$5060$INVITE" :=
  (makeServerTxKey_characterisation reqInvite).2.2.1
    { transp := "UDP", host := "client.example.com", port := some 5060,
      branch := some (some "z9hG4bKinv") }
    { seqNo := 1, methodName := "INVITE" }
    (some "z9hG4bKinv") 5060 rfl rfl rfl (by decide) rfl

/-- C5: client-key derivation succeeds exactly when the message carries
a CSeq header and its top Via branch is in RFC 3261 form; the key is
`branch$method` with ACK folded into INVITE; any failure is a
malformed-branch or missing-header error. -/
theorem makeClientTxKey_characterisation (m : MsgCore) :
    (keyOk (makeClientTxKey m) = (rfc3261Branch m && m.cseq.isSome))
    ∧ (∀ cseq hop mv, m.cseq = some cseq → m.via = some hop →
        hop.branch = some mv → isRFC3261BranchStr (dispMaybe mv) = true →
        makeClientTxKey m = .ok (dispMaybe mv ++ "$" ++ foldACK cseq.methodName))
    ∧ (∀ e, makeClientTxKey m = .error e →
        e = .missingCSeq ∨ e = .missingVia ∨ e = .missingBranch
          ∨ e = .malformedBranch) := by
  refine ⟨?_, ?_, ?_⟩
  · obtain ⟨via, fromH, toH, callId, cseq, ts⟩ := m
    cases cseq with
    | none =>
      cases via with
      | none => simp [makeClientTxKey, rfc3261Branch, keyOk]
      | some hop => simp [makeClientTxKey, keyOk, Bool.and_false]
    | some cs =>
      cases via with
      | none => rfl
      | some hop =>
        obtain ⟨t, h, p, b⟩ := hop
        cases b with
        | none => rfl
        | some mv =>
          cases hr : isRFC3261BranchStr (dispMaybe mv) with
          | false => simp [makeClientTxKey, rfc3261Branch, keyOk, hr]
          | true => simp [makeClientTxKey, rfc3261Branch, keyOk, hr]
  · intro cseq hop mv hc hv hb hr
    simp [makeClientTxKey, hc, hv, hb, hr]
  · intro e he
    cases hc : m.cseq with
    | none =>
      simp [makeClientTxKey, hc] at he
      simp [← he]
    | some cs =>
      cases hv : m.via with
      | none =>
        simp [makeClientTxKey, hc, hv] at he
        simp [← he]
      | some hop =>
        cases hb : hop.branch with
        | none =>
          simp [makeClientTxKey, hc, hv, hb] at he
          simp [← he]
        | some mv =>
          cases hr : isRFC3261BranchStr (dispMaybe mv) with
          | true => simp [makeClientTxKey, hc, hv, hb, hr] at he
          | false =>
            simp [makeClientTxKey, hc, hv, hb, hr] at he
            simp [← he]

/-- C5 witness: the client key of a concrete OPTIONS request. -/
theorem makeClientTxKey_characterisation_witness :
    makeClientTxKey reqOptions.core = Except.ok "z9hG4bKabc$OPTIONS" :=
  (makeClientTxKey_characterisation reqOptions.core).2.1
    { seqNo := 1, methodName := "OPTIONS" }
    { transp := "UDP", host := "client.example.com", port := some 5060,
      branch := some (some "z9hG4bKabc") }
    (some "z9hG4bKabc") rfl rfl rfl (by decide)

/-- C2 witness: `timer_d` while in `calling` (unlisted in the spec
table) leaves a concrete INVITE client transaction unchanged. -/
theorem clientFsm_unlisted_inputs_noop_witness :
    specListedInvite CState.calling CInput.inTimerD = false
    ∧ clientSpin { txNonInvProc with fsmInvite := true, state := CState.calling }
        CInput.inTimerD
      = { txNonInvProc with fsmInvite := true, state := CState.calling } :=
  ⟨by decide,
   (clientFsm_unlisted_inputs_noop txNonInvProc CState.calling CInput.inTimerD).1
     (by decide)⟩

/-- A scheduler with no armed timer is stationary. -/
theorem run_stable (tx : ClientTx) (h : nextEvent tx = none) :
    ∀ n, run n tx = tx := by
  intro n
  cases n with
  | zero => rfl
  | succ m => simp only [run, h]

/-- The state `clientSend` produces on a reliable transport, with the
FSM choice exposed as a Bool parameter. -/
def reliableStart (b : Bool) (origin : SipRequest) (dest : String) : ClientTx :=
  { origin := origin
    dest := dest
    fsmInvite := b
    state := .calling
    now := 0
    timer_a_time := 0
    timer_a := none
    timer_b := some Timer_B
    timer_d_time := 0
    timer_d := none
    lastResp := none
    sent := [(0, .originReq)]
    passedUp := []
    errors := []
    deleted := false }

/-- With `timer_a` unarmed, the only event is the `timer_b` timeout, so
no retransmission ever happens, whichever FSM variant runs. -/
theorem run_reliable_sent (b : Bool) (origin : SipRequest) (dest : String) :
    ∀ n, (run n (reliableStart b origin dest)).sent = [(0, SentItem.originReq)] := by
  intro n
  match b, n with
  | false, 0 => rfl
  | true, 0 => rfl
  | false, Nat.succ m =>
    rw [show run (m + 1) (reliableStart false origin dest)
          = run m (fireNext (reliableStart false origin dest)) from rfl]
    rw [run_stable (fireNext (reliableStart false origin dest)) (by rfl) m]
    rfl
  | true, Nat.succ m =>
    rw [show run (m + 1) (reliableStart true origin dest)
          = run m (fireNext (reliableStart true origin dest)) from rfl]
    rw [run_stable (fireNext (reliableStart true origin dest)) (by rfl) m]
    rfl

set_option maxRecDepth 8000

set_option maxHeartbeats 2000000

/-- C3: a non-INVITE client transaction on a non-reliable transport that
receives no response sends the original request at t = 0 and re-sends it
exactly once per `timer_a` firing at 0.5 s, 1.5 s, 3.5 s, 7.5 s, 11.5 s,
…, 31.5 s (the interval doubles, capped at `T2` = 4 s), until `timer_b`
fires at 32 s, at which point the TU receives a timeout error on the
error channel and the FSM reaches `terminated` (and the transaction is
deleted). -/
theorem nonInvite_udp_retransmission_schedule (req : SipRequest) (dest : String)
    (h : (req.method == "INVITE") = false) :
    ((run 20 (clientSend req dest false)).sent.map Prod.fst
      = [0, 500, 1500, 3500, 7500, 11500, 15500, 19500, 23500, 27500, 31500])
    ∧ ((run 20 (clientSend req dest false)).sent.all
        (fun x => x.2 == SentItem.originReq) = true)
    ∧ ((run 20 (clientSend req dest false)).errors = [(32000, TxErr.timeout)])
    ∧ ((run 20 (clientSend req dest false)).state = CState.terminated)
    ∧ ((run 20 (clientSend req dest false)).deleted = true) := by
  have hobs : (clientSend req dest false).obs
      = ({ fsmInvite := false, state := .calling, now := 0,
           timer_a_time := Timer_A, timer_a := some Timer_A,
           timer_b := some Timer_B, timer_d_time := Timer_D, timer_d := none,
           lastResp := none, sent := [(0, .originReq)], passedUp := [],
           errors := [], deleted := false } : ClientObs) := by
    simp only [clientSend, ClientTx.obs, h]
    rfl
  have hfin : (run 20 (clientSend req dest false)).obs
      = ({ fsmInvite := false, state := .terminated, now := 35500,
           timer_a_time := 4000, timer_a := none, timer_b := none,
           timer_d_time := Timer_D, timer_d := none, lastResp := none,
           sent := [(0, .originReq), (500, .originReq), (1500, .originReq),
                    (3500, .originReq), (7500, .originReq), (11500, .originReq),
                    (15500, .originReq), (19500, .originReq), (23500, .originReq),
                    (27500, .originReq), (31500, .originReq)],
           passedUp := [], errors := [(32000, .timeout)],
           deleted := true } : ClientObs) := by
    rw [← obs_run, hobs]
    decide
  refine ⟨?_, ?_, ?_, ?_, ?_⟩
  · show ((run 20 (clientSend req dest false)).obs).sent.map Prod.fst = _
    rw [hfin]
    rfl
  · show ((run 20 (clientSend req dest false)).obs).sent.all
        (fun x => x.2 == SentItem.originReq) = true
    rw [hfin]
    rfl
  · show ((run 20 (clientSend req dest false)).obs).errors = _
    rw [hfin]
  · show ((run 20 (clientSend req dest false)).obs).state = _
    rw [hfin]
  · show ((run 20 (clientSend req dest false)).obs).deleted = true
    rw [hfin]

/-- C3 witness: the schedule for a concrete OPTIONS request over UDP. -/
theorem nonInvite_udp_retransmission_schedule_witness :
    ((run 20 (clientSend reqOptions "server.example.com:5060" false)).sent.map Prod.fst
      = [0, 500, 1500, 3500, 7500, 11500, 15500, 19500, 23500, 27500, 31500])
    ∧ ((run 20 (clientSend reqOptions "server.example.com:5060" false)).sent.all
        (fun x => x.2 == SentItem.originReq) = true)
    ∧ ((run 20 (clientSend reqOptions "server.example.com:5060" false)).errors
      = [(32000, TxErr.timeout)])
    ∧ ((run 20 (clientSend reqOptions "server.example.com:5060" false)).state
      = CState.terminated)
    ∧ ((run 20 (clientSend reqOptions "server.example.com:5060" false)).deleted = true) :=
  nonInvite_udp_retransmission_schedule reqOptions "server.example.com:5060" (by decide)

/-- C8: on TU `Send` of a client transaction, `timer_a` is armed (at
`Timer_A` = `T1`) if and only if the transport is non-reliable — and on
a reliable transport it never fires, so the request is never
retransmitted; `timer_b` is always armed at `Timer_B` = 64·T1; and
`timer_d_time` is 32 s on a non-reliable transport and 0 on a reliable
one. -/
theorem clientSend_timer_arming (req : SipRequest) (dest : String) (r : Bool) :
    ((clientSend req dest r).timer_a = if r then none else some Timer_A)
    ∧ ((clientSend req dest r).timer_a_time = if r then 0 else T1)
    ∧ ((clientSend req dest r).timer_b = some Timer_B)
    ∧ (Timer_B = 64 * T1)
    ∧ ((clientSend req dest r).timer_d_time = if r then 0 else 32000)
    ∧ (∀ n, (run n (clientSend req dest true)).sent = [(0, SentItem.originReq)]) := by
  refine ⟨rfl, rfl, rfl, rfl, rfl, ?_⟩
  intro n
  exact run_reliable_sent (req.method == "INVITE") req dest n

/-! ### Manager-level fixtures -/

def emptyMngr : Mngr :=
  { reliable := false, txs := [], responses := [], requests := [] }

/-- The top Via hop of `reqInvite`. -/
def hopInv : ViaHop :=
  { transp := "UDP", host := "client.example.com", port := some 5060,
    branch := some (some "z9hG4bKinv") }

/-- A fresh server transaction for `reqInvite`. -/
def srvTxInv : ServerTx :=
  newServerTx false reqInvite hopInv

/-- An ACK carrying the same branch and Via as `reqInvite`, so its
server key folds to the INVITE's key. -/
def reqAckInv : SipRequest :=
  { method := "ACK"
    recipient := "sip:bob@example.com"
    sipVersion := "SIP/2.0"
    core :=
      { via := some hopInv
        fromH := some { uri := "sip:alice@example.com", tag := some (some "ft2") }
        toH := some { uri := "sip:bob@example.com", tag := some (some "tt2") }
        callId := some "call2@example.com"
        cseq := some { seqNo := 1, methodName := "ACK" }
        timestamp := none } }

/-- A manager holding the INVITE server transaction under its key. -/
def mngrWithInv : Mngr :=
  { reliable := false
    txs := [("z9hG4bKinv$client.example.com$5060$INVITE", .server srvTxInv)]
    responses := []
    requests := [] }

/-- A response without a CSeq header (key derivation fails on it). -/
def resNoCSeq : SipResponse :=
  { statusCode := 200
    reason := "OK"
    sipVersion := "SIP/2.0"
    core :=
      { via := some hopInv
        fromH := none
        toH := none
        callId := some "call9@example.com"
        cseq := none
        timestamp := none } }

/-- Server FSM actions never touch the `Ack()` channel; the only push
onto it happens in `Receive` itself. -/
theorem runSAction_ackCh (tx : ServerTx) (a : SAction) :
    (runSAction tx a).ackCh = tx.ackCh := by
  cases a <;> cases h : tx.lastResp <;> simp [runSAction, h]

theorem serverSpin_ackCh (tx : ServerTx) (i : SInput) :
    (serverSpin tx i).ackCh = tx.ackCh := by
  unfold serverSpin
  cases htab : serverTable (tx.origin.method == "INVITE") tx.state i with
  | none => rfl
  | some sa =>
    obtain ⟨s, a⟩ := sa
    exact runSAction_ackCh { tx with state := s } a

/-- C9: on an inbound response, the manager computes the client key and
delivers the response via `Receive` to the stored client transaction
when one matches; when key derivation fails, the lookup misses, or the
stored entry is not a client transaction, the response is pushed onto
the unmatched `Responses()` channel and no transaction changes. -/
theorem correlate_response_routing (m : Mngr) (res : SipResponse) :
    (∀ e, makeClientTxKey res.core = .error e →
      m.correlate res = { m with responses := m.responses ++ [res] })
    ∧ (∀ k, makeClientTxKey res.core = .ok k → m.txs.lookup k = none →
      m.correlate res = { m with responses := m.responses ++ [res] })
    ∧ (∀ k stx, makeClientTxKey res.core = .ok k →
      m.txs.lookup k = some (.server stx) →
      m.correlate res = { m with responses := m.responses ++ [res] })
    ∧ (∀ k tx, makeClientTxKey res.core = .ok k →
      m.txs.lookup k = some (.client tx) →
      m.correlate res
        = { m with txs := putTxL m.txs k (.client (tx.receiveRes res)) }) := by
  refine ⟨?_, ?_, ?_, ?_⟩
  · intro e hk
    simp [Mngr.correlate, hk]
  · intro k hk hl
    simp [Mngr.correlate, hk, hl]
  · intro k stx hk hl
    simp [Mngr.correlate, hk, hl]
  · intro k tx hk hl
    simp [Mngr.correlate, hk, hl]

/-- C9 witness: a response with no CSeq header lands on the unmatched
channel of the empty manager. -/
theorem correlate_response_routing_witness :
    emptyMngr.correlate resNoCSeq = { emptyMngr with responses := [resNoCSeq] } :=
  (correlate_response_routing emptyMngr resNoCSeq).1 .missingCSeq rfl

/-- C6: an inbound ACK whose server key matches a stored INVITE server
transaction is delivered to that transaction via `Receive`, pushed onto
its `Ack()` channel, and no new server transaction is created (the
`Requests()` stream and the rest of the manager are untouched). -/
theorem ack_absorbed_by_matching_server_tx (m : Mngr) (req : SipRequest)
    (k : String) (tx : ServerTx)
    (hk : makeServerTxKey req = .ok k)
    (hl : m.txs.lookup k = some (.server tx))
    (hm : req.method = "ACK") (ho : tx.origin.method = "INVITE") :
    m.request req = { m with txs := putTxL m.txs k (.server (tx.receiveReq req)) }
    ∧ (tx.receiveReq req).ackCh = tx.ackCh ++ [req]
    ∧ (m.request req).requests = m.requests
    ∧ (m.request req).responses = m.responses := by
  have h1 : m.request req
      = { m with txs := putTxL m.txs k (.server (tx.receiveReq req)) } := by
    simp [Mngr.request, hk, hl]
  have hbeq : (req.method == tx.origin.method) = false := by
    rw [hm, ho]; decide
  have hack : (req.method == "ACK") = true := by
    rw [hm]; decide
  refine ⟨h1, ?_, by rw [h1], by rw [h1]⟩
  show (ServerTx.receiveReq tx req).ackCh = tx.ackCh ++ [req]
  unfold ServerTx.receiveReq
  simp only [hbeq, hack, if_true, if_false, Bool.false_eq_true, ite_false, ite_true]
  rw [serverSpin_ackCh]

/-- C6 witness: the concrete ACK is absorbed by the stored INVITE server
transaction without creating a new one. -/
theorem ack_absorbed_by_matching_server_tx_witness :
    (mngrWithInv.request reqAckInv).requests = mngrWithInv.requests
    ∧ (srvTxInv.receiveReq reqAckInv).ackCh = srvTxInv.ackCh ++ [reqAckInv] :=
  ⟨(ack_absorbed_by_matching_server_tx mngrWithInv reqAckInv
      "z9hG4bKinv$client.example.com$5060$INVITE" srvTxInv rfl rfl rfl rfl).2.2.1,
   (ack_absorbed_by_matching_server_tx mngrWithInv reqAckInv
      "z9hG4bKinv$client.example.com$5060$INVITE" srvTxInv rfl rfl rfl rfl).2.1⟩

/-- C7: when the manager creates a new server transaction for an
inbound INVITE (and only for INVITE), it immediately sends a
`100 Trying` whose Via, From, To, Call-ID, CSeq and Timestamp are copied
from the request, driving the FSM with `user_1xx`; for any other method
no response is sent at creation. -/
theorem invite_server_auto_trying (m : Mngr) (req : SipRequest) (hop : ViaHop)
    (k : String)
    (hk : makeServerTxKey req = .ok k)
    (hl : m.txs.lookup k = none)
    (hv : req.core.via = some hop) :
    (req.method = "INVITE" →
      m.request req
        = { m with
              txs := putTxL m.txs k
                (.server ((newServerTx m.reliable req hop).trying)),
              requests := m.requests ++ [(newServerTx m.reliable req hop).trying] }
      ∧ ((newServerTx m.reliable req hop).trying).sentS = [(0, mkTrying req)]
      ∧ ((newServerTx m.reliable req hop).trying).lastResp = some (mkTrying req)
      ∧ ((newServerTx m.reliable req hop).trying).state = SState.proceeding)
    ∧ (req.method ≠ "INVITE" →
      m.request req
        = { m with
              txs := putTxL m.txs k (.server (newServerTx m.reliable req hop)),
              requests := m.requests ++ [newServerTx m.reliable req hop] }
      ∧ (newServerTx m.reliable req hop).sentS = []
      ∧ (newServerTx m.reliable req hop).lastResp = none)
    ∧ (mkTrying req).statusCode = 100
    ∧ (mkTrying req).core = req.core
    ∧ (mkTrying req).sipVersion = req.sipVersion := by
  refine ⟨?_, ?_, rfl, rfl, rfl⟩
  · intro hinv
    have hbeq : (req.method == "INVITE") = true := by rw [hinv]; decide
    have htry : (newServerTx m.reliable req hop).trying
        = { newServerTx m.reliable req hop with
              state := .proceeding,
              lastResp := some (mkTrying req),
              sentS := [(0, mkTrying req)] } := by
      unfold ServerTx.trying serverSpin
      simp only [newServerTx, hbeq]
      rfl
    refine ⟨?_, ?_, ?_, ?_⟩
    · simp [Mngr.request, hk, hl, Mngr.createServerTx, hv, hbeq]
    · rw [htry]
    · rw [htry]
    · rw [htry]
  · intro hninv
    have hbeq : (req.method == "INVITE") = false := by
      cases hb : req.method == "INVITE" with
      | false => rfl
      | true => exact absurd (by simpa using hb) hninv
    refine ⟨?_, rfl, rfl⟩
    simp [Mngr.request, hk, hl, Mngr.createServerTx, hv, hbeq]

/-- C7 witness: the concrete INVITE produces an auto `100 Trying` copied
from the request. -/
theorem invite_server_auto_trying_witness :
    ((newServerTx emptyMngr.reliable reqInvite hopInv).trying).sentS
      = [(0, mkTrying reqInvite)]
    ∧ (mkTrying reqInvite).core = reqInvite.core
    ∧ (emptyMngr.request reqInvite).requests
      = [(newServerTx emptyMngr.reliable reqInvite hopInv).trying] :=
  ⟨((invite_server_auto_trying emptyMngr reqInvite hopInv
      "z9hG4bKinv$client.example.com$5060$INVITE" rfl rfl rfl).1 rfl).2.1,
   (invite_server_auto_trying emptyMngr reqInvite hopInv
      "z9hG4bKinv$client.example.com$5060$INVITE" rfl rfl rfl).2.2.2.1,
   by
    rw [((invite_server_auto_trying emptyMngr reqInvite hopInv
      "z9hG4bKinv$client.example.com$5060$INVITE" rfl rfl rfl).1 rfl).1]
    rfl⟩

/-- C10: delivering a message of the wrong kind to a transaction — a
request to a client transaction or a response to a server transaction —
or delivering to a server transaction a request whose method is neither
the origin's method nor ACK, leaves the transaction unchanged: no FSM
input is fed and nothing else mutates. -/
theorem receive_wrong_kind_noop :
    (∀ (tx : ClientTx) (r : SipRequest), tx.receiveMsg (SipMsg.req r) = tx)
    ∧ (∀ (tx : ServerTx) (r : SipResponse), tx.receiveMsg (SipMsg.res r) = tx)
    ∧ (∀ (tx : ServerTx) (r : SipRequest),
        (r.method == tx.origin.method) = false → (r.method == "ACK") = false →
        tx.receiveReq r = tx) := by
  refine ⟨fun tx r => rfl, fun tx r => rfl, ?_⟩
  intro tx r h1 h2
  simp [ServerTx.receiveReq, h1, h2]

/-- C10 witness: an OPTIONS request correlated to an INVITE server
transaction is discarded without touching the transaction. -/
theorem receive_wrong_kind_noop_witness :
    srvTxInv.receiveReq reqOptions = srvTxInv :=
  receive_wrong_kind_noop.2.2 srvTxInv reqOptions (by decide) (by decide)

end Gossip
